import Mathlib

/-!
Verification development for the Currency exchange backend.

The backend (Express + Mongoose) is shallowly embedded: the persisted
collections become Lean lists, each controller becomes a pure function from
its inputs and the current store to a result value and the updated store, and
JavaScript numbers flowing through the conversion endpoint are modelled as
exact rationals extended with NaN and the two infinities.  Timestamps are
natural numbers supplied explicitly where the code calls Date.now().
-/

attribute [local semireducible] Rat.mul Rat.add Rat.sub Rat.inv Rat.ofScientific

namespace Currency

/-- String.prototype.toUpperCase, written on the character list so that every
definition evaluates by kernel reduction. -/
def strToUpper (s : String) : String := String.mk (s.data.map Char.toUpper)

/-- String.prototype.trim, written on the character list. -/
def strTrim (s : String) : String :=
  String.mk (((s.data.dropWhile Char.isWhitespace).reverse.dropWhile Char.isWhitespace).reverse)

/-- Emptiness of a string, written on the character list. -/
def strIsEmpty (s : String) : Bool := s.data.isEmpty

/-- Length of a string, written on the character list. -/
def strLen (s : String) : Nat := s.data.length

/-- A JavaScript number as it can appear in the amount field of a conversion
request: a finite value (modelled exactly as a rational), NaN, or one of the
infinities. -/
inductive JsNum where
  | fin (q : ℚ)
  | nan
  | posInf
  | negInf
deriving DecidableEq

/-- JavaScript truthiness of a number: 0 and NaN are falsy, everything else
(including the infinities) is truthy. -/
def jsTruthy : JsNum → Bool
  | JsNum.fin q => decide (q ≠ 0)
  | JsNum.nan => false
  | JsNum.posInf => true
  | JsNum.negInf => true

/-- The isNaN test. -/
def jsIsNan : JsNum → Bool
  | JsNum.nan => true
  | _ => false

/-- The comparison amount < 0 (false on NaN). -/
def jsLtZero : JsNum → Bool
  | JsNum.fin q => decide (q < 0)
  | JsNum.negInf => true
  | _ => false

/-- The comparison amount <= 0 (false on NaN). -/
def jsLeZero : JsNum → Bool
  | JsNum.fin q => decide (q ≤ 0)
  | JsNum.negInf => true
  | _ => false

/-- Multiplication of the amount by the stored (finite) rate, with the
JavaScript special cases: NaN propagates, an infinity times a positive rate
keeps its sign, times a negative rate flips it, and times zero gives NaN. -/
def jsMulRate : JsNum → ℚ → JsNum
  | JsNum.fin q, r => JsNum.fin (q * r)
  | JsNum.nan, _ => JsNum.nan
  | JsNum.posInf, r =>
    if 0 < r then JsNum.posInf else if r < 0 then JsNum.negInf else JsNum.nan
  | JsNum.negInf, r =>
    if 0 < r then JsNum.negInf else if r < 0 then JsNum.posInf else JsNum.nan

/-- Number(x.toFixed(2)) on a finite value: the integer multiple of 1/100
nearest to x, ties going to the larger multiple (ECMA toFixed picks the
larger candidate on a tie). -/
def ratToFixed2 (x : ℚ) : ℚ := (⌊x * 100 + 1 / 2⌋ : ℚ) / 100

/-- Number(x.toFixed(2)) on a JavaScript number: NaN and the infinities map
to themselves (via the strings NaN and Infinity). -/
def jsToFixed2 : JsNum → JsNum
  | JsNum.fin q => JsNum.fin (ratToFixed2 q)
  | JsNum.nan => JsNum.nan
  | JsNum.posInf => JsNum.posInf
  | JsNum.negInf => JsNum.negInf

/-- Rounding to 2 decimal places with ties away from zero, exactly as the
specification words the conversion result. -/
def roundHalfAwayFromZero2 (x : ℚ) : ℚ :=
  if 0 ≤ x then (⌊x * 100 + 1 / 2⌋ : ℚ) / 100
  else -((⌊-(x * 100) + 1 / 2⌋ : ℚ) / 100)

/-- A persisted currency pair document.  The id stands for the Mongo object
id, lastUpdated for the Date stored in that field. -/
structure CurrencyPair where
  id : Nat
  baseCurrency : String
  targetCurrency : String
  rate : ℚ
  lastUpdated : Nat
deriving DecidableEq

/-- CurrencyPair.findOne on the ordered pair of codes. -/
def findPair (store : List CurrencyPair) (base target : String) : Option CurrencyPair :=
  store.find? (fun p => p.baseCurrency == base && p.targetCurrency == target)

/-- CurrencyPair.findById. -/
def findById (store : List CurrencyPair) (i : Nat) : Option CurrencyPair :=
  store.find? (fun p => p.id == i)

/-- How many records a store holds for one ordered pair of codes. -/
def countPair (store : List CurrencyPair) (base target : String) : Nat :=
  (store.filter (fun p => p.baseCurrency == base && p.targetCurrency == target)).length

/-- currencyPairSchema.methods.convert: throws on a falsy, NaN or negative
amount, otherwise returns Number((amount * this.rate).toFixed(2)). -/
def convertMethod (rate : ℚ) (amount : JsNum) : Except String JsNum :=
  if !jsTruthy amount || jsIsNan amount || jsLtZero amount then
    Except.error "Invalid amount for conversion"
  else
    Except.ok (jsToFixed2 (jsMulRate amount rate))

/-- Outcome of the POST convert controller. -/
inductive ConvertResult where
  | badRequest
  | notFound
  | serverError (msg : String)
  | ok (baseCurrency targetCurrency : String) (amount converted : JsNum) (rate : ℚ)
deriving DecidableEq

/-- convertCurrency: rejects a falsy or non-positive amount with 400, looks up
the trimmed and uppercased ordered pair (the route sanitizer trims the codes;
the controller uppercases them), answers 404 when it is absent, and otherwise
runs the model convert method, a thrown error surfacing as 500. -/
def convertCurrency (store : List CurrencyPair) (baseCurrency targetCurrency : String)
    (amount : Option JsNum) : ConvertResult :=
  match amount with
  | none => ConvertResult.badRequest
  | some a =>
    if !jsTruthy a || jsLeZero a then ConvertResult.badRequest
    else
      match findPair store (strToUpper (strTrim baseCurrency)) (strToUpper (strTrim targetCurrency)) with
      | none => ConvertResult.notFound
      | some p =>
        match convertMethod p.rate a with
        | Except.error e => ConvertResult.serverError e
        | Except.ok c =>
          ConvertResult.ok p.baseCurrency p.targetCurrency a c p.rate

/-- The request body of the create and update routes: each field may be
absent (undefined). -/
structure PairBody where
  baseCurrency : Option String
  targetCurrency : Option String
  rate : Option ℚ
deriving DecidableEq

/-- The trim sanitizers of the validation chain mutate the body before the
controller sees it. -/
def sanitizeBody (b : PairBody) : PairBody :=
  { baseCurrency := b.baseCurrency.map strTrim
    targetCurrency := b.targetCurrency.map strTrim
    rate := b.rate }

/-- One currency-code check of currencyPairValidation: present, non-empty
after trimming, exactly 3 characters, already uppercase. -/
def codeOk : Option String → Bool
  | none => false
  | some s => !strIsEmpty s && strLen s == 3 && s == strToUpper s

/-- The rate check of currencyPairValidation: present and a float strictly
greater than 0. -/
def rateOk : Option ℚ → Bool
  | none => false
  | some q => decide (0 < q)

/-- currencyPairValidation: all three fields must pass for validationResult
to be empty. -/
def currencyPairValidation (b : PairBody) : Bool :=
  codeOk b.baseCurrency && codeOk b.targetCurrency && rateOk b.rate

/-- Outcome of the POST create controller. -/
inductive CreateResult where
  | forbidden
  | badRequest
  | conflict
  | created (p : CurrencyPair)
deriving DecidableEq

/-- createCurrencyPair: validation first, then the duplicate check on the
uppercased ordered pair, then insertion of the new document (lastUpdated
defaults to the creation time). -/
def createCurrencyPair (nextId now : Nat) (store : List CurrencyPair) (body : PairBody) :
    CreateResult × List CurrencyPair :=
  let b := sanitizeBody body
  if !currencyPairValidation b then (CreateResult.badRequest, store)
  else
    match b.baseCurrency, b.targetCurrency, b.rate with
    | some sb, some st, some r =>
      match findPair store (strToUpper sb) (strToUpper st) with
      | some _ => (CreateResult.conflict, store)
      | none =>
        let p : CurrencyPair :=
          { id := nextId, baseCurrency := strToUpper sb, targetCurrency := strToUpper st
            rate := r, lastUpdated := now }
        (CreateResult.created p, store ++ [p])
    | _, _, _ => (CreateResult.badRequest, store)

/-- Outcome of the PUT update controller. -/
inductive UpdateResult where
  | forbidden
  | badRequest
  | notFound
  | ok (p : CurrencyPair)
deriving DecidableEq

/-- The conditional field assignments of updateCurrencyPair: a falsy rate
(absent or zero) is skipped, a falsy code (absent or empty) is skipped, a
provided code is uppercased. -/
def applyUpdate (b : PairBody) (p : CurrencyPair) : CurrencyPair :=
  let p1 := match b.rate with
    | some r => if r ≠ 0 then { p with rate := r } else p
    | none => p
  let p2 := match b.baseCurrency with
    | some s => if !strIsEmpty s then { p1 with baseCurrency := strToUpper s } else p1
    | none => p1
  match b.targetCurrency with
  | some s => if !strIsEmpty s then { p2 with targetCurrency := strToUpper s } else p2
  | none => p2

/-- Whether the rate path is marked modified: the assignment happened (truthy
rate) and the assigned value differs from the stored one (Mongoose does not
mark a path modified when it is set to its current value). -/
def rateModified (b : PairBody) (p : CurrencyPair) : Bool :=
  match b.rate with
  | some r => decide (r ≠ 0) && decide (r ≠ p.rate)
  | none => false

/-- The pre-save hook: refresh lastUpdated exactly when the rate path was
modified. -/
def preSave (now : Nat) (modified : Bool) (p : CurrencyPair) : CurrencyPair :=
  if modified then { p with lastUpdated := now } else p

/-- updateCurrencyPair: validation first (the PUT route reuses the full
creation validation), then lookup by id, then the conditional assignments,
the pre-save hook and the save. -/
def updateCurrencyPair (now : Nat) (store : List CurrencyPair) (i : Nat) (body : PairBody) :
    UpdateResult × List CurrencyPair :=
  let b := sanitizeBody body
  if !currencyPairValidation b then (UpdateResult.badRequest, store)
  else
    match findById store i with
    | none => (UpdateResult.notFound, store)
    | some p =>
      let p' := preSave now (rateModified b p) (applyUpdate b p)
      (UpdateResult.ok p', store.map (fun q => if q.id = i then p' else q))

/-- Outcome of the DELETE controller. -/
inductive DeleteResult where
  | forbidden
  | notFound
  | removed
deriving DecidableEq

/-- deleteCurrencyPair: lookup by id, then deleteOne. -/
def deleteCurrencyPair (store : List CurrencyPair) (i : Nat) :
    DeleteResult × List CurrencyPair :=
  match findById store i with
  | none => (DeleteResult.notFound, store)
  | some _ => (DeleteResult.removed, store.filter (fun p => p.id != i))

/-- A persisted user record; the password field holds only the hash. -/
structure UserRec where
  id : Nat
  username : String
  passwordHash : String
  role : String
deriving DecidableEq

/-- The admin middleware test: req.user is set and its role is admin. -/
def adminCheck : Option UserRec → Bool
  | some u => u.role == "admin"
  | none => false

/-- POST currency route: protect has already produced the identity; the admin
middleware rejects before validation and controller run. -/
def createRoute (u : UserRec) (nextId now : Nat) (store : List CurrencyPair)
    (body : PairBody) : CreateResult × List CurrencyPair :=
  if adminCheck (some u) then createCurrencyPair nextId now store body
  else (CreateResult.forbidden, store)

/-- PUT currency route: admin middleware, then the update controller. -/
def updateRoute (u : UserRec) (now : Nat) (store : List CurrencyPair) (i : Nat)
    (body : PairBody) : UpdateResult × List CurrencyPair :=
  if adminCheck (some u) then updateCurrencyPair now store i body
  else (UpdateResult.forbidden, store)

/-- DELETE currency route: admin middleware, then the delete controller. -/
def deleteRoute (u : UserRec) (store : List CurrencyPair) (i : Nat) :
    DeleteResult × List CurrencyPair :=
  if adminCheck (some u) then deleteCurrencyPair store i
  else (DeleteResult.forbidden, store)

/-- The ordering getCurrencyPairs sorts by: baseCurrency ascending. -/
def pairLE (p q : CurrencyPair) : Prop := p.baseCurrency ≤ q.baseCurrency

instance : DecidableRel pairLE :=
  fun p q => inferInstanceAs (Decidable (p.baseCurrency ≤ q.baseCurrency))

instance : IsTotal CurrencyPair pairLE :=
  ⟨fun p q => le_total p.baseCurrency q.baseCurrency⟩

instance : IsTrans CurrencyPair pairLE :=
  ⟨fun _ _ _ h h' => le_trans h h'⟩

/-- getCurrencyPairs: find().sort on baseCurrency ascending. -/
def getCurrencyPairs (store : List CurrencyPair) : List CurrencyPair :=
  List.insertionSort pairLE store

/-- User.findOne by exact username. -/
def findUser (store : List UserRec) (username : String) : Option UserRec :=
  store.find? (fun u => u.username == username)

/-- registerValidation: username trimmed non-empty of length at least 3,
password trimmed non-empty of length at least 6, role optional but limited
to user or admin when present. -/
def registerValidationOk (username password role : Option String) : Bool :=
  (match username with
    | some s => !strIsEmpty (strTrim s) && decide (3 ≤ strLen (strTrim s))
    | none => false) &&
  (match password with
    | some s => !strIsEmpty (strTrim s) && decide (6 ≤ strLen (strTrim s))
    | none => false) &&
  (match role with
    | none => true
    | some r => r == "user" || r == "admin")

/-- Outcome of the register controller; on success the response carries the
new user's id, username and role. -/
inductive RegisterResult where
  | badRequest (msg : String)
  | created (id : Nat) (username role : String)
deriving DecidableEq

/-- registerUser: validation, the presence and length re-checks, the
duplicate-username check, then creation with the role hard-coded to user
(whatever role the body supplied) and the password stored hashed. -/
def registerUser (hash : String → String) (nextId : Nat) (store : List UserRec)
    (username password role : Option String) : RegisterResult × List UserRec :=
  if !registerValidationOk username password role then
    (RegisterResult.badRequest "validation failed", store)
  else
    match username, password with
    | some u0, some p0 =>
      let u := strTrim u0
      let p := strTrim p0
      if strIsEmpty u || strIsEmpty p then
        (RegisterResult.badRequest "Please provide both username and password", store)
      else if strLen u < 3 then
        (RegisterResult.badRequest "Username must be at least 3 characters long", store)
      else if strLen p < 6 then
        (RegisterResult.badRequest "Password must be at least 6 characters long", store)
      else
        match findUser store u with
        | some _ => (RegisterResult.badRequest "Username already exists", store)
        | none =>
          let newUser : UserRec :=
            { id := nextId, username := u, passwordHash := hash p, role := "user" }
          (RegisterResult.created nextId u "user", store ++ [newUser])
    | _, _ => (RegisterResult.badRequest "Please provide both username and password", store)

/-- loginValidation: both credentials present and non-empty after trimming. -/
def loginValidationOk (username password : Option String) : Bool :=
  (match username with
    | some s => !strIsEmpty (strTrim s)
    | none => false) &&
  (match password with
    | some s => !strIsEmpty (strTrim s)
    | none => false)

/-- Outcome of the login controller. -/
inductive LoginResult where
  | badRequest
  | ok (id : Nat) (username role : String)
  | authError (msg : String)
deriving DecidableEq

/-- loginUser: validation, lookup by exact (trimmed) username, then the hash
comparison; the user-missing case and the password-mismatch case fall into
the one else branch with the one generic message.  The bcrypt comparison is
passed in as an oracle. -/
def loginUser (compare : String → String → Bool) (store : List UserRec)
    (username password : Option String) : LoginResult :=
  if !loginValidationOk username password then LoginResult.badRequest
  else
    match username, password with
    | some u0, some p0 =>
      match findUser store (strTrim u0) with
      | some usr =>
        if compare (strTrim p0) usr.passwordHash then LoginResult.ok usr.id usr.username usr.role
        else LoginResult.authError "Invalid username or password"
      | none => LoginResult.authError "Invalid username or password"
    | _, _ => LoginResult.badRequest

/-! Theorems. -/

/-- On nonnegative values the toFixed rounding (ties to the larger candidate)
agrees with rounding half away from zero. -/
theorem roundHalfAwayFromZero2_eq_ratToFixed2 (x : ℚ) (hx : 0 ≤ x) :
    roundHalfAwayFromZero2 x = ratToFixed2 x := by
  unfold roundHalfAwayFromZero2 ratToFixed2
  rw [if_pos hx]

/-- A demonstration store with a single USD to EUR pair at rate 0.85. -/
def demoPair : CurrencyPair :=
  { id := 1, baseCurrency := "USD", targetCurrency := "EUR", rate := 17 / 20, lastUpdated := 0 }

/-- C1: for every stored currency pair with rate r and every accepted amount
a > 0, Convert returns convertedAmount equal to a * r rounded half away from
zero to 2 decimal places, and returns the stored rate unrounded. -/
theorem convert_returns_rounded_product (store : List CurrencyPair)
    (base target : String) (p : CurrencyPair) (a : ℚ)
    (hfind : findPair store (strToUpper (strTrim base)) (strToUpper (strTrim target)) = some p)
    (hr : 0 < p.rate) (ha : 0 < a) :
    convertCurrency store base target (some (JsNum.fin a)) =
      ConvertResult.ok p.baseCurrency p.targetCurrency (JsNum.fin a)
        (JsNum.fin (roundHalfAwayFromZero2 (a * p.rate))) p.rate := by
  have hcond : (!jsTruthy (JsNum.fin a) || jsLeZero (JsNum.fin a)) = false := by
    simp [jsTruthy, jsLeZero, ha.ne', not_le.mpr ha]
  have hguard :
      (!jsTruthy (JsNum.fin a) || jsIsNan (JsNum.fin a) || jsLtZero (JsNum.fin a)) = false := by
    simp [jsTruthy, jsIsNan, jsLtZero, ha.ne', not_lt.mpr ha.le]
  simp only [convertCurrency, hcond, Bool.false_eq_true, if_false, hfind, convertMethod, hguard,
    jsMulRate, jsToFixed2]
  rw [roundHalfAwayFromZero2_eq_ratToFixed2 _ (mul_nonneg ha.le hr.le)]

/-- C1 witness: converting 100 through the stored USD to EUR pair at
rate 0.85. -/
theorem convert_returns_rounded_product_witness :
    convertCurrency [demoPair] "USD" "EUR" (some (JsNum.fin 100)) =
      ConvertResult.ok demoPair.baseCurrency demoPair.targetCurrency (JsNum.fin 100)
        (JsNum.fin (roundHalfAwayFromZero2 (100 * demoPair.rate))) demoPair.rate :=
  convert_returns_rounded_product [demoPair] "USD" "EUR" demoPair 100
    (by decide) (by decide) (by decide)

/-- C2 counterexample: a positive-infinite (hence non-finite) amount is not
rejected with a ValidationError: the conversion succeeds and returns
Infinity. -/
theorem convert_accepts_infinite_amount :
    convertCurrency [demoPair] "USD" "EUR" (some JsNum.posInf) =
      ConvertResult.ok "USD" "EUR" JsNum.posInf JsNum.posInf (17 / 20) := by decide

/-- C2 amended: the conversion endpoint answers 400 exactly when the amount
is missing, NaN, negative infinity, or a finite value at most 0; any other
amount (a positive finite value or positive infinity) is accepted, and then
404 is answered exactly when the uppercased ordered pair is absent. -/
theorem convert_error_cases (store : List CurrencyPair) (base target : String)
    (amount : Option JsNum) :
    (convertCurrency store base target amount = ConvertResult.badRequest ↔
      amount = none ∨ amount = some JsNum.nan ∨ amount = some JsNum.negInf ∨
        ∃ q, amount = some (JsNum.fin q) ∧ q ≤ 0) ∧
    (convertCurrency store base target amount ≠ ConvertResult.badRequest →
      (convertCurrency store base target amount = ConvertResult.notFound ↔
        findPair store (strToUpper (strTrim base)) (strToUpper (strTrim target)) = none)) := by
  rcases amount with _ | a
  · simp [convertCurrency]
  · rcases a with q | _ | _ | _
    · by_cases hq : q ≤ 0
      · have hcond : (!jsTruthy (JsNum.fin q) || jsLeZero (JsNum.fin q)) = true := by
          simp [jsTruthy, jsLeZero, hq]
        constructor
        · simp only [convertCurrency, hcond, if_true]
          simp only [true_iff]
          exact Or.inr (Or.inr (Or.inr ⟨q, rfl, hq⟩))
        · intro hne
          exact absurd (by simp only [convertCurrency, hcond, if_true]) hne
      · have hq' : 0 < q := lt_of_not_le hq
        have hcond : (!jsTruthy (JsNum.fin q) || jsLeZero (JsNum.fin q)) = false := by
          simp [jsTruthy, jsLeZero, hq'.ne', hq]
        have hguard :
            (!jsTruthy (JsNum.fin q) || jsIsNan (JsNum.fin q) || jsLtZero (JsNum.fin q))
              = false := by
          simp [jsTruthy, jsIsNan, jsLtZero, hq'.ne', not_lt.mpr hq'.le]
        constructor
        · simp only [convertCurrency, hcond, Bool.false_eq_true, if_false]
          cases hf : findPair store (strToUpper (strTrim base)) (strToUpper (strTrim target)) with
          | none => simp [hq]
          | some p => simp [convertMethod, hguard, hq]
        · intro _
          simp only [convertCurrency, hcond, Bool.false_eq_true, if_false]
          cases hf : findPair store (strToUpper (strTrim base)) (strToUpper (strTrim target)) with
          | none => simp
          | some p => simp [convertMethod, hguard]
    · simp [convertCurrency, jsTruthy, jsLeZero]
    · have hcond : (!jsTruthy JsNum.posInf || jsLeZero JsNum.posInf) = false := by
        simp [jsTruthy, jsLeZero]
      have hguard :
          (!jsTruthy JsNum.posInf || jsIsNan JsNum.posInf || jsLtZero JsNum.posInf) = false := by
        simp [jsTruthy, jsIsNan, jsLtZero]
      constructor
      · simp only [convertCurrency, hcond, Bool.false_eq_true, if_false]
        cases hf : findPair store (strToUpper (strTrim base)) (strToUpper (strTrim target)) with
        | none => simp
        | some p => simp [convertMethod, hguard]
      · intro _
        simp only [convertCurrency, hcond, Bool.false_eq_true, if_false]
        cases hf : findPair store (strToUpper (strTrim base)) (strToUpper (strTrim target)) with
        | none => simp
        | some p => simp [convertMethod, hguard]
    · simp [convertCurrency, jsTruthy, jsLeZero]

/-- C2 amended witness: instance of the classification at a missing amount
over the empty store. -/
theorem convert_error_cases_witness :
    (convertCurrency [] "USD" "EUR" none = ConvertResult.badRequest ↔
      (none : Option JsNum) = none ∨ (none : Option JsNum) = some JsNum.nan ∨
        (none : Option JsNum) = some JsNum.negInf ∨
        ∃ q, (none : Option JsNum) = some (JsNum.fin q) ∧ q ≤ 0) ∧
    (convertCurrency [] "USD" "EUR" none ≠ ConvertResult.badRequest →
      (convertCurrency [] "USD" "EUR" none = ConvertResult.notFound ↔
        findPair [] (strToUpper (strTrim "USD")) (strToUpper (strTrim "EUR")) = none)) :=
  convert_error_cases [] "USD" "EUR" none

/-- An admin identity, as produced by the protect middleware for an admin
token. -/
def adminUser : UserRec := { id := 9, username := "root", passwordHash := "h", role := "admin" }

/-- A store holding the two distinct ordered pairs (USD,EUR) and (GBP,EUR),
satisfying the at-most-one-record-per-ordered-pair invariant. -/
def storeTwoPairs : List CurrencyPair :=
  [{ id := 1, baseCurrency := "USD", targetCurrency := "EUR", rate := 17 / 20, lastUpdated := 0 },
   { id := 2, baseCurrency := "GBP", targetCurrency := "EUR", rate := 23 / 20, lastUpdated := 0 }]

/-- C3: the update operation performs no duplicate check, so an admin update
that renames pair 2's base currency to USD leaves the store with two
(USD,EUR) records: update does not preserve the
at-most-one-record-per-ordered-pair invariant, against the schema's own
statement that the compound index keeps currency pairs unique. -/
theorem update_breaks_pair_uniqueness :
    countPair storeTwoPairs "USD" "EUR" = 1 ∧
    countPair (updateRoute adminUser 5 storeTwoPairs 2
      { baseCurrency := some "USD", targetCurrency := some "EUR", rate := some (23 / 20) }).2
      "USD" "EUR" = 2 := by decide

/-- C4 counterexample: an admin update supplying rate = 0 on an existing pair
is rejected with a 400 validation error (the store unchanged) instead of
completing successfully with the rate silently skipped. -/
theorem update_zero_rate_is_rejected :
    updateRoute adminUser 5 storeTwoPairs 1
      { baseCurrency := some "USD", targetCurrency := some "EUR", rate := some 0 } =
      (UpdateResult.badRequest, storeTwoPairs) := by decide

/-- C4 amended: the controller's falsy-rate branch would skip the assignment,
but the PUT pipeline runs the full creation validation first, so every update
request whose rate is 0 is rejected with a 400 validation error before the
pair is looked up, and the store is left unchanged. -/
theorem update_zero_rate_badRequest (now : Nat) (store : List CurrencyPair)
    (i : Nat) (b : PairBody) (hb : b.rate = some 0) :
    updateCurrencyPair now store i b = (UpdateResult.badRequest, store) := by
  have h1 : currencyPairValidation (sanitizeBody b) = false := by
    simp [currencyPairValidation, sanitizeBody, rateOk, hb]
  unfold updateCurrencyPair
  simp [h1]

/-- C4 amended witness: a rate-0 update against the empty store. -/
theorem update_zero_rate_badRequest_witness :
    updateCurrencyPair 3 [] 7 { baseCurrency := none, targetCurrency := none, rate := some 0 } =
      (UpdateResult.badRequest, []) :=
  update_zero_rate_badRequest 3 [] 7 _ rfl

/-- C5: a PUT request reaches the stored pair only when the full creation
validation passes: both codes present as trimmed, non-empty, 3-character,
uppercase strings and the rate present and strictly positive; otherwise the
request is answered 400 with the store untouched, before any lookup. -/
theorem put_requires_full_validation (now : Nat) (store : List CurrencyPair)
    (i : Nat) (b : PairBody) :
    (currencyPairValidation (sanitizeBody b) = true ↔
      (∃ s, b.baseCurrency = some s ∧ strIsEmpty (strTrim s) = false ∧
        strLen (strTrim s) = 3 ∧ strTrim s = strToUpper (strTrim s)) ∧
      (∃ s, b.targetCurrency = some s ∧ strIsEmpty (strTrim s) = false ∧
        strLen (strTrim s) = 3 ∧ strTrim s = strToUpper (strTrim s)) ∧
      (∃ r, b.rate = some r ∧ 0 < r)) ∧
    (currencyPairValidation (sanitizeBody b) = false →
      updateCurrencyPair now store i b = (UpdateResult.badRequest, store)) := by
  constructor
  · rcases b with ⟨ob, ot, or⟩
    simp only [currencyPairValidation, sanitizeBody, Bool.and_eq_true]
    constructor
    · rintro ⟨⟨h1, h2⟩, h3⟩
      refine ⟨?_, ?_, ?_⟩
      · rcases ob with _ | s
        · exact absurd h1 (by simp [codeOk])
        · have h1' : (strIsEmpty (strTrim s) = false ∧ strLen (strTrim s) = 3) ∧
              strTrim s = strToUpper (strTrim s) := by
            simpa [codeOk, Bool.and_eq_true] using h1
          exact ⟨s, rfl, h1'.1.1, h1'.1.2, h1'.2⟩
      · rcases ot with _ | s
        · exact absurd h2 (by simp [codeOk])
        · have h2' : (strIsEmpty (strTrim s) = false ∧ strLen (strTrim s) = 3) ∧
              strTrim s = strToUpper (strTrim s) := by
            simpa [codeOk, Bool.and_eq_true] using h2
          exact ⟨s, rfl, h2'.1.1, h2'.1.2, h2'.2⟩
      · rcases or with _ | r
        · exact absurd h3 (by simp [rateOk])
        · exact ⟨r, rfl, by simpa [rateOk] using h3⟩
    · rintro ⟨⟨s1, hs1, he1, hl1, hu1⟩, ⟨s2, hs2, he2, hl2, hu2⟩, ⟨r, hr, hrpos⟩⟩
      subst hs1; subst hs2; subst hr
      refine ⟨⟨?_, ?_⟩, ?_⟩
      · simp [codeOk, he1, hl1, ← hu1]
      · simp [codeOk, he2, hl2, ← hu2]
      · simp [rateOk, hrpos]
  · intro h1
    unfold updateCurrencyPair
    simp [h1]

/-- C5 witness: a partial update missing the target currency is rejected 400
with the store unchanged. -/
theorem put_requires_full_validation_witness :
    updateCurrencyPair 4 [] 2 { baseCurrency := some "USD", targetCurrency := none, rate := some 1 } =
      (UpdateResult.badRequest, []) :=
  (put_requires_full_validation 4 [] 2
    { baseCurrency := some "USD", targetCurrency := none, rate := some 1 }).2 (by decide)

/-- The sanitizers leave the rate field alone. -/
theorem sanitizeBody_rate (b : PairBody) : (sanitizeBody b).rate = b.rate := rfl

/-- The conditional field assignments never touch lastUpdated. -/
theorem applyUpdate_lastUpdated (b : PairBody) (p : CurrencyPair) :
    (applyUpdate b p).lastUpdated = p.lastUpdated := by
  unfold applyUpdate
  rcases b with ⟨ob, ot, or⟩
  rcases or with _ | r <;> rcases ob with _ | sb <;> rcases ot with _ | st <;>
    simp only [] <;> split_ifs <;> rfl

/-- When the rate path is not marked modified, the assignments leave the
stored rate unchanged. -/
theorem applyUpdate_rate_of_not_modified (b : PairBody) (p : CurrencyPair)
    (hm : rateModified b p = false) : (applyUpdate b p).rate = p.rate := by
  unfold rateModified at hm
  unfold applyUpdate
  rcases b with ⟨ob, ot, or⟩
  rcases or with _ | r
  · rcases ob with _ | sb <;> rcases ot with _ | st <;>
      simp only [] <;> split_ifs <;> rfl
  · simp only [Bool.and_eq_true, decide_eq_true_eq, Bool.and_eq_false_iff,
      decide_eq_false_iff_not, not_not] at hm
    rcases ob with _ | sb <;> rcases ot with _ | st <;> simp only [] <;>
      split_ifs <;> first
        | rfl
        | (rcases hm with hm | hm
           · exact absurd hm (by simp_all)
           · simp_all)

/-- When the rate path is marked modified, the assigned rate differs from the
stored one. -/
theorem applyUpdate_rate_of_modified (b : PairBody) (p : CurrencyPair)
    (hm : rateModified b p = true) : (applyUpdate b p).rate ≠ p.rate := by
  unfold rateModified at hm
  unfold applyUpdate
  rcases b with ⟨ob, ot, or⟩
  rcases or with _ | r
  · exact absurd hm (by simp)
  · simp only [Bool.and_eq_true, decide_eq_true_eq] at hm
    rcases ob with _ | sb <;> rcases ot with _ | st <;> simp only [] <;>
      split_ifs <;> simp_all

/-- C6: on every successful update of an existing pair, lastUpdated is set to
the save time when the stored rate actually changed, and is left untouched
when the saved rate equals the stored one. -/
theorem update_lastUpdated_iff_rate_change (now : Nat) (store : List CurrencyPair)
    (i : Nat) (b : PairBody) (p p' : CurrencyPair) (st' : List CurrencyPair)
    (hp : findById store i = some p)
    (hres : updateCurrencyPair now store i b = (UpdateResult.ok p', st')) :
    (p'.rate ≠ p.rate → p'.lastUpdated = now) ∧
    (p'.rate = p.rate → p'.lastUpdated = p.lastUpdated) := by
  simp only [updateCurrencyPair] at hres
  rcases hv : currencyPairValidation (sanitizeBody b) with _ | _
  · rw [hv] at hres
    simp at hres
  · rw [hv, hp] at hres
    simp only [Bool.not_true, Bool.false_eq_true, if_false, Prod.mk.injEq,
      UpdateResult.ok.injEq] at hres
    obtain ⟨hp', _⟩ := hres
    subst hp'
    rcases hm : rateModified (sanitizeBody b) p with _ | _
    · have hrate := applyUpdate_rate_of_not_modified (sanitizeBody b) p hm
      have hlast := applyUpdate_lastUpdated (sanitizeBody b) p
      constructor
      · intro hne
        exact absurd (by simpa [preSave, hm] using hrate) hne
      · intro _
        simpa [preSave, hm] using hlast
    · have hrate := applyUpdate_rate_of_modified (sanitizeBody b) p hm
      constructor
      · intro _
        simp [preSave, hm]
      · intro heq
        exact absurd (by simpa [preSave, hm] using heq) hrate

/-- C6 witness: an update saving the same rate leaves lastUpdated at its old
value (here 0, with save time 9). -/
theorem update_lastUpdated_iff_rate_change_witness :
    (((storeTwoPairs.get ⟨0, by decide⟩).rate ≠ (storeTwoPairs.get ⟨0, by decide⟩).rate →
        (storeTwoPairs.get ⟨0, by decide⟩).lastUpdated = 9) ∧
      ((storeTwoPairs.get ⟨0, by decide⟩).rate = (storeTwoPairs.get ⟨0, by decide⟩).rate →
        (storeTwoPairs.get ⟨0, by decide⟩).lastUpdated =
          (storeTwoPairs.get ⟨0, by decide⟩).lastUpdated)) :=
  update_lastUpdated_iff_rate_change 9 storeTwoPairs 1
    { baseCurrency := some "USD", targetCurrency := some "EUR", rate := some (17 / 20) }
    (storeTwoPairs.get ⟨0, by decide⟩) (storeTwoPairs.get ⟨0, by decide⟩) storeTwoPairs
    (by decide) (by decide)

/-- C7: every registration that succeeds persists the new user with role
forced to user, whatever role the request body supplied, and the response
carries role user. -/
theorem register_forces_user_role (hash : String → String) (nextId : Nat)
    (store : List UserRec) (username password role : Option String)
    (i : Nat) (unm rl : String) (st' : List UserRec)
    (h : registerUser hash nextId store username password role =
      (RegisterResult.created i unm rl, st')) :
    rl = "user" ∧ ∃ u : UserRec, st' = store ++ [u] ∧ u.role = "user" ∧
      u.username = unm ∧ u.id = i := by
  rcases username with _ | u0
  · simp [registerUser, registerValidationOk] at h
  rcases password with _ | p0
  · simp [registerUser, registerValidationOk] at h
  simp only [registerUser] at h
  split_ifs at h with hval h1 h2 h3
  · simp at h
  · simp at h
  · simp at h
  · simp at h
  · split at h
    · simp at h
    · simp only [Prod.mk.injEq, RegisterResult.created.injEq] at h
      obtain ⟨⟨hi, hu, hr⟩, hst⟩ := h
      exact ⟨hr.symm,
        { id := nextId, username := strTrim u0, passwordHash := hash (strTrim p0),
          role := "user" },
        hst.symm, rfl, hu, hi⟩

/-- C7 witness: registering alice while the body asks for role admin still
yields role user. -/
theorem register_forces_user_role_witness :
    "user" = "user" ∧ ∃ u : UserRec,
      [({ id := 1, username := "alice", passwordHash := "secret1", role := "user" } : UserRec)] =
        [] ++ [u] ∧ u.role = "user" ∧ u.username = "alice" ∧ u.id = 1 :=
  register_forces_user_role (fun s => s) 1 [] (some "alice") (some "secret1") (some "admin")
    1 "alice" "user"
    [{ id := 1, username := "alice", passwordHash := "secret1", role := "user" }] (by decide)

/-- C8: the admin gate passes exactly for the role admin, and a verified
identity of any other role gets 403 from each of create, update and delete,
with the store left unchanged. -/
theorem admin_gate (u : UserRec) (nextId now : Nat) (store : List CurrencyPair)
    (i : Nat) (b : PairBody) :
    (adminCheck (some u) = true ↔ u.role = "admin") ∧
    (u.role ≠ "admin" →
      createRoute u nextId now store b = (CreateResult.forbidden, store) ∧
      updateRoute u now store i b = (UpdateResult.forbidden, store) ∧
      deleteRoute u store i = (DeleteResult.forbidden, store)) := by
  constructor
  · simp [adminCheck]
  · intro h
    have hc : adminCheck (some u) = false := by simp [adminCheck, h]
    refine ⟨?_, ?_, ?_⟩ <;> simp [createRoute, updateRoute, deleteRoute, hc]

/-- A non-admin identity, as produced by the protect middleware for a user
token. -/
def bobUser : UserRec := { id := 2, username := "bob", passwordHash := "x", role := "user" }

/-- C8 witness: a non-admin identity with a perfectly valid payload is turned
away from all three mutating routes. -/
theorem admin_gate_witness :
    createRoute bobUser 5 9 []
      { baseCurrency := some "USD", targetCurrency := some "EUR", rate := some 1 } =
      (CreateResult.forbidden, []) ∧
    updateRoute bobUser 9 [] 1
      { baseCurrency := some "USD", targetCurrency := some "EUR", rate := some 1 } =
      (UpdateResult.forbidden, []) ∧
    deleteRoute bobUser [] 1 = (DeleteResult.forbidden, []) :=
  (admin_gate bobUser 5 9 [] 1
    { baseCurrency := some "USD", targetCurrency := some "EUR", rate := some 1 }).2 (by decide)

/-- C9: the two failing login runs, unknown username on one hand and known
username with a rejected password on the other, produce the same
AuthenticationError value with the same generic message, for every store and
every comparison oracle. -/
theorem login_failures_uniform (compare : String → String → Bool)
    (store : List UserRec) (u1 p1 u2 p2 : String)
    (hv1 : loginValidationOk (some u1) (some p1) = true)
    (hv2 : loginValidationOk (some u2) (some p2) = true)
    (h1 : findUser store (strTrim u1) = none)
    (usr : UserRec) (h2 : findUser store (strTrim u2) = some usr)
    (h2p : compare (strTrim p2) usr.passwordHash = false) :
    loginUser compare store (some u1) (some p1) =
      LoginResult.authError "Invalid username or password" ∧
    loginUser compare store (some u2) (some p2) =
      LoginResult.authError "Invalid username or password" ∧
    loginUser compare store (some u1) (some p1) =
      loginUser compare store (some u2) (some p2) := by
  have hL1 : loginUser compare store (some u1) (some p1) =
      LoginResult.authError "Invalid username or password" := by
    simp only [loginUser, hv1, Bool.not_true, Bool.false_eq_true, if_false, h1]
  have hL2 : loginUser compare store (some u2) (some p2) =
      LoginResult.authError "Invalid username or password" := by
    simp only [loginUser, hv2, Bool.not_true, Bool.false_eq_true, if_false, h2, h2p]
  exact ⟨hL1, hL2, hL1.trans hL2.symm⟩

/-- C9 witness: with alice stored, logging in as the unknown bob and logging
in as alice with a wrong password give the identical response. -/
theorem login_failures_uniform_witness :
    loginUser (fun p h => p == h)
      [{ id := 1, username := "alice", passwordHash := "secret1", role := "user" }]
      (some "bob") (some "pass123") =
      LoginResult.authError "Invalid username or password" ∧
    loginUser (fun p h => p == h)
      [{ id := 1, username := "alice", passwordHash := "secret1", role := "user" }]
      (some "alice") (some "wrong1") =
      LoginResult.authError "Invalid username or password" ∧
    loginUser (fun p h => p == h)
      [{ id := 1, username := "alice", passwordHash := "secret1", role := "user" }]
      (some "bob") (some "pass123") =
      loginUser (fun p h => p == h)
        [{ id := 1, username := "alice", passwordHash := "secret1", role := "user" }]
        (some "alice") (some "wrong1") :=
  login_failures_uniform (fun p h => p == h)
    [{ id := 1, username := "alice", passwordHash := "secret1", role := "user" }]
    "bob" "pass123" "alice" "wrong1" (by decide) (by decide) (by decide)
    { id := 1, username := "alice", passwordHash := "secret1", role := "user" }
    (by decide) (by decide)

/-- C10: a successful admin create followed by a list (with no intervening
mutation) yields the created pair, its codes trimmed and uppercased and its
rate the given one, inside a result sorted by baseCurrency ascending. -/
theorem create_then_list_contains (u : UserRec) (nextId now : Nat)
    (store : List CurrencyPair) (sb st : String) (r : ℚ)
    (p : CurrencyPair) (store' : List CurrencyPair)
    (h : createRoute u nextId now store
      { baseCurrency := some sb, targetCurrency := some st, rate := some r } =
      (CreateResult.created p, store')) :
    p ∈ getCurrencyPairs store' ∧
    p.baseCurrency = strToUpper (strTrim sb) ∧
    p.targetCurrency = strToUpper (strTrim st) ∧
    p.rate = r ∧
    List.Sorted pairLE (getCurrencyPairs store') := by
  simp only [createRoute] at h
  split_ifs at h with hadm
  · simp only [createCurrencyPair, sanitizeBody, Option.map_some'] at h
    split_ifs at h with hval
    · simp at h
    · split at h
      · simp at h
      · simp only [Prod.mk.injEq, CreateResult.created.injEq] at h
        obtain ⟨hp, hst⟩ := h
        subst hp
        refine ⟨?_, rfl, rfl, rfl, ?_⟩
        · rw [getCurrencyPairs, List.Perm.mem_iff (List.perm_insertionSort pairLE store'), ← hst]
          exact List.mem_append_right _ (List.mem_singleton_self _)
        · exact List.sorted_insertionSort pairLE store'
  · simp at h

/-- The pair the C10 witness creates. -/
def createdPairW : CurrencyPair :=
  { id := 5, baseCurrency := "USD", targetCurrency := "EUR", rate := 17 / 20, lastUpdated := 9 }

/-- C10 witness: an admin creates (USD, EUR, 0.85) over the empty store and
the listing contains it, sorted. -/
theorem create_then_list_contains_witness :
    createdPairW ∈ getCurrencyPairs [createdPairW] ∧
    createdPairW.baseCurrency = strToUpper (strTrim "USD") ∧
    createdPairW.targetCurrency = strToUpper (strTrim "EUR") ∧
    createdPairW.rate = 17 / 20 ∧
    List.Sorted pairLE (getCurrencyPairs [createdPairW]) :=
  create_then_list_contains adminUser 5 9 [] "USD" "EUR" (17 / 20) createdPairW
    [createdPairW] (by decide)

end Currency
